import Mathlib

/-!
Verification of the `jax-code-coffee` demo notebook (`demo.ipynb`).

The notebook builds a synthetic two-component Gaussian mixture dataset,
defines the mixture model and a chi-square objective twice (once with
numpy, once with jax's numpy), fits it, and samples posteriors with
numpyro.  We embed the numerical content over `List ℝ`: a Python/numpy
1-D array becomes a `List ℝ`, the six-way tuple unpacking
`a0, x0, s0, a1, x1, s1 = p` becomes a pattern match that fails (returns
`none`) on any list whose length is not six, and numpy's elementwise
combination of two 1-D arrays becomes an `Option`-valued operation that
follows numpy's 1-D broadcasting rule (equal lengths, or either operand
of length one; anything else raises in numpy, hence `none` here).
-/

namespace CodeCoffee

/-- Elementwise combination of two 1-D arrays under numpy's 1-D
broadcasting rule: equal lengths combine index by index, a length-one
operand is stretched to the other's length, and any other pair of
lengths is a shape error (`none`). -/
def ewCombine (f : ℝ → ℝ → ℝ) (a b : List ℝ) : Option (List ℝ) :=
  if a.length = b.length then some (List.zipWith f a b)
  else if a.length = 1 then some (b.map fun bi => f (a.headD 0) bi)
  else if b.length = 1 then some (a.map fun ai => f ai (b.headD 0))
  else none

/-- `model_numpy(p, x)` from `demo.ipynb`:
`a0, x0, s0, a1, x1, s1 = p` then
`a0 * np.exp(-0.5 * (x - x0)**2 / s0**2) + a1 * np.exp(-0.5 * (x - x1)**2 / s1**2)`.
The unpacking raises unless `p` has exactly six entries. -/
noncomputable def model_numpy (p : List ℝ) (x : List ℝ) : Option (List ℝ) :=
  match p with
  | [a0, x0, s0, a1, x1, s1] =>
      some (x.map fun t =>
        a0 * Real.exp (-0.5 * (t - x0) ^ 2 / s0 ^ 2) +
        a1 * Real.exp (-0.5 * (t - x1) ^ 2 / s1 ^ 2))
  | _ => none

/-- `chi2_numpy(p, x, y, yerr)` from `demo.ipynb`:
`np.sum((model_numpy(p, x) - y)**2 / yerr**2)` — the model array minus
`y` elementwise (numpy broadcasting), squared, divided by the scalar
`yerr**2`, summed. -/
noncomputable def chi2_numpy (p x yv : List ℝ) (yerr : ℝ) : Option ℝ :=
  (model_numpy p x).bind fun m =>
    (ewCombine (fun mi yi => mi - yi) m yv).map fun r =>
      (r.map fun ri => ri ^ 2 / yerr ^ 2).sum

/-- `model_jax(p, x)` from `demo.ipynb`: identical to `model_numpy`
except that it calls `jnp.exp` instead of `np.exp` (and is wrapped in
`@jit`, which does not change the denoted function). -/
noncomputable def model_jax (p : List ℝ) (x : List ℝ) : Option (List ℝ) :=
  match p with
  | [a0, x0, s0, a1, x1, s1] =>
      some (x.map fun t =>
        a0 * Real.exp (-0.5 * (t - x0) ^ 2 / s0 ^ 2) +
        a1 * Real.exp (-0.5 * (t - x1) ^ 2 / s1 ^ 2))
  | _ => none

/-- `chi2_jax(p, x, y, yerr)` from `demo.ipynb`:
`jnp.sum((model_jax(p, x) - y)**2 / yerr**2)`, under `@jit`. -/
noncomputable def chi2_jax (p x yv : List ℝ) (yerr : ℝ) : Option ℝ :=
  (model_jax p x).bind fun m =>
    (ewCombine (fun mi yi => mi - yi) m yv).map fun r =>
      (r.map fun ri => ri ^ 2 / yerr ^ 2).sum

/-- `jnp.linspace(start, stop, num)` with the default inclusive
endpoint: entry `i` is `start + i * (stop - start) / (num - 1)`. -/
noncomputable def linspace (start stop : ℝ) (num : ℕ) : List ℝ :=
  (List.range num).map fun i : ℕ =>
    start + (i : ℝ) * ((stop - start) / ((num : ℝ) - 1))

/-- `dev_arr = jnp.linspace(-5, 5, 1_000)` from `demo.ipynb`. -/
noncomputable def dev_arr : List ℝ := linspace (-5) 5 1000

/-- `amp0 = 5` (true amplitude of the first component). -/
noncomputable def amp0 : ℝ := 5

/-- `amp1 = 10` (true amplitude of the second component). -/
noncomputable def amp1 : ℝ := 10

/-- `x0 = 0.5` (true center of the first component). -/
noncomputable def x0 : ℝ := 0.5

/-- `x1 = -0.2` (true center of the second component). -/
noncomputable def x1 : ℝ := -0.2

/-- `s0 = 1` (true standard deviation of the first component). -/
noncomputable def s0 : ℝ := 1

/-- `s1 = 0.3` (true standard deviation of the second component). -/
noncomputable def s1 : ℝ := 0.3

/-- `yerr = 0.4` (noise scale of the synthetic data). -/
noncomputable def yerr : ℝ := 0.4

/-- The synthetic dependent variable from `demo.ipynb`
(`x = np.array(dev_arr.copy())`, then
`y = amp0 * np.exp(-0.5 * (x - x0)**2 / s0**2) + amp1 * np.exp(-0.5 * (x - x1)**2 / s1**2) + np.random.normal(scale=yerr, size=(len(x)))`),
as a function of the noise array the generator draws; the notebook draws
`noise` with `size=len(x)`, so its length equals `dev_arr.length`. -/
noncomputable def y (noise : List ℝ) : List ℝ :=
  List.zipWith (· + ·)
    (dev_arr.map fun t =>
      amp0 * Real.exp (-0.5 * (t - x0) ^ 2 / s0 ^ 2) +
      amp1 * Real.exp (-0.5 * (t - x1) ^ 2 / s1 ^ 2))
    noise

/-- The true parameter vector in the order `model_numpy` unpacks it:
`(a0, x0, s0, a1, x1, s1)`. -/
noncomputable def p_true : List ℝ := [amp0, x0, s0, amp1, x1, s1]

/-- The claim's words for the objective, for comparison with the code's
`chi2_numpy`: the plain sum of squared residuals `Σᵢ (model(p,x)ᵢ − yᵢ)²`,
with no `1 / yerr²` weighting. -/
noncomputable def sum_sq_residuals_spec (p x yv : List ℝ) : Option ℝ :=
  (model_numpy p x).bind fun m =>
    (ewCombine (fun mi yi => mi - yi) m yv).map fun r =>
      (r.map fun ri => ri ^ 2).sum

/-- `init_guess = np.array([5, 0, 2, 10, 0, 0.8])` from `demo.ipynb`. -/
noncomputable def init_guess : List ℝ := [5, 0, 2, 10, 0, 0.8]

/-- The deterministic core of `numpyro_model` from `demo.ipynb`: the
likelihood mean `model_jax([a0, x0, s0, a1, x1, s1], x)` on the
notebook's abscissa `x` (a copy of `dev_arr`), as a function of the
sampled parameters. -/
noncomputable def numpyro_model_mean (a0 μ0 σ0 a1 μ1 σ1 : ℝ) :
    Option (List ℝ) :=
  model_jax [a0, μ0, σ0, a1, μ1, σ1] dev_arr

/-- `cpu_cores = 4` from `demo.ipynb`. -/
def cpu_cores : ℕ := 4

/-- The argument the notebook passes to `numpyro.set_host_device_count`. -/
def host_device_count : ℕ := cpu_cores

/-- `rng_seed = 42` from `demo.ipynb`. -/
def rng_seed : ℕ := 42

/-- A jax PRNG key, modelled as its seed. -/
def PRNGKey (seed : ℕ) : ℕ := seed

/-- Modelled from the spec: `jax.random.split` is external library code;
only its documented shape is modelled — splitting a key into `num` parts
yields a list of exactly `num` fresh keys (modelled as the parent key
paired with the branch index; the notebook only relies on how many keys
are produced, never on their values). -/
def split (key : ℕ) (num : ℕ) : List (ℕ × ℕ) :=
  (List.range num).map fun i => (key, i)

/-- `rng_keys = split(PRNGKey(rng_seed), cpu_cores)` from `demo.ipynb`. -/
def rng_keys : List (ℕ × ℕ) := split (PRNGKey rng_seed) cpu_cores

/-- `num_warmup=1_000` of the notebook's `MCMC(...)` call. -/
def num_warmup : ℕ := 1000

/-- `num_samples=5_000` of the notebook's `MCMC(...)` call. -/
def num_samples : ℕ := 5000

/-- `num_chains=4` of the notebook's `MCMC(...)` call. -/
def num_chains : ℕ := 4

/-- The support bounds of a `dist.Uniform(low=..., high=...)` prior. -/
structure UniformPrior where
  low : ℝ
  high : ℝ

/-- `amp0 ~ dist.Uniform(low=0, high=8)` in `numpyro_model`. -/
noncomputable def amp0_prior : UniformPrior := ⟨0, 8⟩

/-- `amp1 ~ dist.Uniform(low=8, high=30)` in `numpyro_model`. -/
noncomputable def amp1_prior : UniformPrior := ⟨8, 30⟩

/-- `center ~ dist.Uniform(low=-1, high=1)` with `sample_shape=(2,)` in
`numpyro_model`, the shared prior of `x0` and `x1`. -/
noncomputable def center_prior : UniformPrior := ⟨-1, 1⟩

/-- `sigma ~ dist.Uniform(low=0, high=3)` with `sample_shape=(2,)` in
`numpyro_model`, the shared prior of `s0` and `s1`. -/
noncomputable def sigma_prior : UniformPrior := ⟨0, 3⟩

/-- A value lies strictly inside the support of a uniform prior. -/
def UniformPrior.mem (pr : UniformPrior) (v : ℝ) : Prop :=
  pr.low < v ∧ v < pr.high

lemma model_numpy_eq_model_jax (p x : List ℝ) :
    model_numpy p x = model_jax p x := by
  match p with
  | [] => rfl
  | [_] => rfl
  | [_, _] => rfl
  | [_, _, _] => rfl
  | [_, _, _, _] => rfl
  | [_, _, _, _, _] => rfl
  | [_, _, _, _, _, _] => rfl
  | _ :: _ :: _ :: _ :: _ :: _ :: _ :: _ => rfl

lemma chi2_numpy_eq_chi2_jax (p x yv : List ℝ) (yerr : ℝ) :
    chi2_numpy p x yv yerr = chi2_jax p x yv yerr := by
  rw [chi2_numpy, chi2_jax, model_numpy_eq_model_jax]

lemma model_numpy_six (a0 μ0 σ0 a1 μ1 σ1 : ℝ) (x : List ℝ) :
    model_numpy [a0, μ0, σ0, a1, μ1, σ1] x =
      some (x.map fun t =>
        a0 * Real.exp (-0.5 * (t - μ0) ^ 2 / σ0 ^ 2) +
        a1 * Real.exp (-0.5 * (t - μ1) ^ 2 / σ1 ^ 2)) := rfl

lemma model_numpy_none_of_length_ne (p x : List ℝ) (h : p.length ≠ 6) :
    model_numpy p x = none := by
  match p with
  | [] => rfl
  | [_] => rfl
  | [_, _] => rfl
  | [_, _, _] => rfl
  | [_, _, _, _] => rfl
  | [_, _, _, _, _] => rfl
  | [_, _, _, _, _, _] => exact absurd rfl h
  | _ :: _ :: _ :: _ :: _ :: _ :: _ :: _ => rfl

lemma length_six_eq (p : List ℝ) (h : p.length = 6) :
    ∃ u1 u2 u3 u4 u5 u6, p = [u1, u2, u3, u4, u5, u6] := by
  rcases p with _ | ⟨u1, _ | ⟨u2, _ | ⟨u3, _ | ⟨u4, _ | ⟨u5, _ | ⟨u6, _ | ⟨u7, t⟩⟩⟩⟩⟩⟩⟩
  all_goals simp at h
  exact ⟨u1, u2, u3, u4, u5, u6, rfl⟩

lemma ewCombine_of_length_eq (f : ℝ → ℝ → ℝ) (a b : List ℝ)
    (h : a.length = b.length) :
    ewCombine f a b = some (List.zipWith f a b) := by
  rw [ewCombine, if_pos h]

lemma ewCombine_eq_none_iff (f : ℝ → ℝ → ℝ) (a b : List ℝ) :
    ewCombine f a b = none ↔
      a.length ≠ b.length ∧ a.length ≠ 1 ∧ b.length ≠ 1 := by
  rw [ewCombine]
  split_ifs with h1 h2 h3 <;> simp [*]

lemma chi2_numpy_six (a0 μ0 σ0 a1 μ1 σ1 : ℝ) (x yv : List ℝ) (yerr : ℝ)
    (h : x.length = yv.length) :
    chi2_numpy [a0, μ0, σ0, a1, μ1, σ1] x yv yerr =
      some ((List.zipWith (fun mi yi => (mi - yi) ^ 2 / yerr ^ 2)
        (x.map fun t =>
          a0 * Real.exp (-0.5 * (t - μ0) ^ 2 / σ0 ^ 2) +
          a1 * Real.exp (-0.5 * (t - μ1) ^ 2 / σ1 ^ 2)) yv).sum) := by
  rw [chi2_numpy, model_numpy_six, Option.some_bind,
    ewCombine_of_length_eq _ _ _ (by rw [List.length_map]; exact h),
    Option.map_some', List.map_zipWith]

lemma chi2_numpy_eq_none_iff (p x yv : List ℝ) (yerr : ℝ) :
    chi2_numpy p x yv yerr = none ↔
      p.length ≠ 6 ∨
        (x.length ≠ yv.length ∧ x.length ≠ 1 ∧ yv.length ≠ 1) := by
  by_cases hp : p.length = 6
  · obtain ⟨u1, u2, u3, u4, u5, u6, rfl⟩ := length_six_eq p hp
    rw [chi2_numpy, model_numpy_six, Option.some_bind, Option.map_eq_none',
      ewCombine_eq_none_iff, List.length_map]
    simp [hp]
  · rw [chi2_numpy, model_numpy_none_of_length_ne p x hp]
    simp [hp]

/-- C1: The numpy and jax implementations denote the same mathematical
functions: `model_numpy` and `model_jax` agree on every parameter list
and every input array (both returning the two-component Gaussian
mixture `a0·exp(−0.5·(x−x0)²/s0²) + a1·exp(−0.5·(x−x1)²/s1²)` when the
parameter list has six entries), and `chi2_numpy` and `chi2_jax` agree
on every parameter list, data arrays and `yerr`. -/
theorem model_chi2_numpy_jax_equiv :
    (∀ p x, model_numpy p x = model_jax p x) ∧
    (∀ p x yv yerr, chi2_numpy p x yv yerr = chi2_jax p x yv yerr) ∧
    (∀ a0 μ0 σ0 a1 μ1 σ1 : ℝ, ∀ x : List ℝ,
      model_numpy [a0, μ0, σ0, a1, μ1, σ1] x =
        some (x.map fun t =>
          a0 * Real.exp (-0.5 * (t - μ0) ^ 2 / σ0 ^ 2) +
          a1 * Real.exp (-0.5 * (t - μ1) ^ 2 / σ1 ^ 2))) :=
  ⟨model_numpy_eq_model_jax, chi2_numpy_eq_chi2_jax,
   fun a0 μ0 σ0 a1 μ1 σ1 x => model_numpy_six a0 μ0 σ0 a1 μ1 σ1 x⟩

lemma dev_arr_length : dev_arr.length = 1000 := by
  rw [dev_arr, linspace, List.length_map, List.length_range]

lemma dev_arr_getD (i : ℕ) (h : i < 1000) :
    dev_arr.getD i 0 = -5 + i * (10 / 999) := by
  rw [dev_arr, linspace, List.getD_eq_getElem?_getD, List.getElem?_map,
    List.getElem?_range h]
  simp only [Option.map_some', Option.getD_some]
  norm_num

/-- C6: `dev_arr = jnp.linspace(-5, 5, 1_000)` is a fixed-length,
linearly spaced sequence: it has exactly 1000 elements, its first
element is −5, its last element is 5, and every pair of consecutive
elements differs by the same step `10 / 999`. -/
theorem dev_arr_linearly_spaced :
    dev_arr.length = 1000 ∧
    dev_arr.getD 0 0 = -5 ∧
    dev_arr.getD 999 0 = 5 ∧
    (∀ i : ℕ, i + 1 < 1000 →
      dev_arr.getD (i + 1) 0 - dev_arr.getD i 0 = 10 / 999) := by
  refine ⟨dev_arr_length, ?_, ?_, fun i hi => ?_⟩
  · rw [dev_arr_getD 0 (by norm_num)]; norm_num
  · rw [dev_arr_getD 999 (by norm_num)]; norm_num
  · rw [dev_arr_getD (i + 1) hi, dev_arr_getD i (by omega)]
    push_cast
    ring

/-- Witness for C6 at the concrete index 0. -/
theorem dev_arr_linearly_spaced_witness :
    (0 : ℕ) + 1 < 1000 ∧ dev_arr.getD 1 0 - dev_arr.getD 0 0 = 10 / 999 :=
  ⟨by norm_num, dev_arr_linearly_spaced.2.2.2 0 (by norm_num)⟩

lemma zipWith_add_sub_cancel :
    ∀ (a b : List ℝ), a.length = b.length →
      List.zipWith (fun u v => u - v) (List.zipWith (· + ·) a b) b = a := by
  intro a
  induction a with
  | nil => intro b _; simp
  | cons u a ih =>
      intro b hb
      match b with
      | [] => simp at hb
      | v :: b =>
          simp only [List.zipWith_cons_cons, List.cons.injEq]
          exact ⟨by ring, ih b (by simpa using hb)⟩

/-- C2: The synthetic `y` is exactly the mixture model at the true
parameters plus the noise draw: `model_numpy p_true dev_arr` succeeds,
`y noise` is its value plus `noise` elementwise, and (the noise having
length `len(x)`) subtracting the noise from `y` recovers the model
values. -/
theorem y_eq_model_plus_noise (noise : List ℝ)
    (h : noise.length = dev_arr.length) :
    (model_numpy p_true dev_arr).map (fun m => List.zipWith (· + ·) m noise) =
      some (y noise) ∧
    model_numpy p_true dev_arr =
      some (List.zipWith (fun yi ni => yi - ni) (y noise) noise) := by
  constructor
  · rfl
  · show some _ = some _
    rw [Option.some.injEq, y,
      zipWith_add_sub_cancel _ _ (by rw [List.length_map]; exact h.symm)]

/-- Witness for C2 with an all-zero noise draw of length 1000. -/
theorem y_eq_model_plus_noise_witness :
    (List.replicate 1000 (0 : ℝ)).length = dev_arr.length ∧
    ((model_numpy p_true dev_arr).map
        (fun m => List.zipWith (· + ·) m (List.replicate 1000 (0 : ℝ))) =
      some (y (List.replicate 1000 (0 : ℝ))) ∧
    model_numpy p_true dev_arr =
      some (List.zipWith (fun yi ni => yi - ni)
        (y (List.replicate 1000 (0 : ℝ))) (List.replicate 1000 (0 : ℝ)))) :=
  ⟨by rw [List.length_replicate, dev_arr_length],
   y_eq_model_plus_noise (List.replicate 1000 (0 : ℝ))
     (by rw [List.length_replicate, dev_arr_length])⟩

/-- C3 (counterexample): `chi2_numpy` does not return the plain sum of
squared residuals: at `p = [1, 0, 1, 1, 0, 1]`, `x = [0]`, `y = [0]`
and the notebook's `yerr = 0.4`, the code returns `(2 − 0)² / 0.4² = 25`
while the claim's formula gives `(2 − 0)² = 4`. -/
theorem chi2_not_plain_ssr :
    chi2_numpy [1, 0, 1, 1, 0, 1] [0] [0] yerr ≠
      sum_sq_residuals_spec [1, 0, 1, 1, 0, 1] [0] [0] := by
  rw [chi2_numpy, sum_sq_residuals_spec, model_numpy_six, yerr]
  norm_num [ewCombine, Real.exp_zero]

/-- C3 (amended): for a six-component parameter vector and equal-length
`x`, `y`, `chi2_numpy(p, x, y, yerr)` (and likewise `chi2_jax`) returns
the noise-weighted sum of squared residuals
`Σᵢ (model(p, x)ᵢ − yᵢ)² / yerr²`. -/
theorem chi2_is_weighted_ssr (a0 μ0 σ0 a1 μ1 σ1 : ℝ) (x yv : List ℝ)
    (yerr : ℝ) (h : x.length = yv.length) :
    chi2_numpy [a0, μ0, σ0, a1, μ1, σ1] x yv yerr =
      some ((List.zipWith (fun mi yi => (mi - yi) ^ 2 / yerr ^ 2)
        (x.map fun t =>
          a0 * Real.exp (-0.5 * (t - μ0) ^ 2 / σ0 ^ 2) +
          a1 * Real.exp (-0.5 * (t - μ1) ^ 2 / σ1 ^ 2)) yv).sum) ∧
    chi2_jax [a0, μ0, σ0, a1, μ1, σ1] x yv yerr =
      some ((List.zipWith (fun mi yi => (mi - yi) ^ 2 / yerr ^ 2)
        (x.map fun t =>
          a0 * Real.exp (-0.5 * (t - μ0) ^ 2 / σ0 ^ 2) +
          a1 * Real.exp (-0.5 * (t - μ1) ^ 2 / σ1 ^ 2)) yv).sum) :=
  ⟨chi2_numpy_six a0 μ0 σ0 a1 μ1 σ1 x yv yerr h,
   (chi2_numpy_eq_chi2_jax _ _ _ _).symm.trans
     (chi2_numpy_six a0 μ0 σ0 a1 μ1 σ1 x yv yerr h)⟩

/-- Witness for C3's amended theorem at
`p = [1, 0, 1, 1, 0, 1]`, `x = [0]`, `y = [0]`, `yerr = 1`. -/
theorem chi2_is_weighted_ssr_witness :
    List.length [(0 : ℝ)] = List.length [(0 : ℝ)] ∧
    (chi2_numpy [1, 0, 1, 1, 0, 1] [0] [0] 1 =
      some ((List.zipWith (fun mi yi => (mi - yi) ^ 2 / (1 : ℝ) ^ 2)
        (List.map (fun t =>
          1 * Real.exp (-0.5 * (t - 0) ^ 2 / 1 ^ 2) +
          1 * Real.exp (-0.5 * (t - 0) ^ 2 / 1 ^ 2)) [0]) [0]).sum) ∧
    chi2_jax [1, 0, 1, 1, 0, 1] [0] [0] 1 =
      some ((List.zipWith (fun mi yi => (mi - yi) ^ 2 / (1 : ℝ) ^ 2)
        (List.map (fun t =>
          1 * Real.exp (-0.5 * (t - 0) ^ 2 / 1 ^ 2) +
          1 * Real.exp (-0.5 * (t - 0) ^ 2 / 1 ^ 2)) [0]) [0]).sum)) :=
  ⟨rfl, chi2_is_weighted_ssr 1 0 1 1 0 1 [0] [0] 1 rfl⟩

/-- C5 (counterexample): with a valid six-component parameter vector,
nonzero standard deviations and nonzero `yerr`, `chi2_numpy` and
`chi2_jax` still fail on broadcast-incompatible `x` and `y`
(`len(x) = 2`, `len(y) = 3`), so the stated precondition does not make
the chi2 evaluations total. -/
theorem chi2_shape_mismatch_fails :
    chi2_numpy [1, 0, 1, 1, 0, 1] [0, 0] [0, 0, 0] 1 = none ∧
    chi2_jax [1, 0, 1, 1, 0, 1] [0, 0] [0, 0, 0] 1 = none :=
  ⟨rfl, rfl⟩

/-- C5 (amended): with a six-component parameter vector, `model_numpy`
and `model_jax` always succeed (under real arithmetic no division can
fail, whatever `s0`, `s1`, `yerr`), and `chi2_numpy` and `chi2_jax`
succeed as soon as `x` and `y` additionally have equal lengths; for a
parameter vector whose length is not six, the unpacking step fails and
all four functions return the failure. -/
theorem model_chi2_total (a0 μ0 σ0 a1 μ1 σ1 : ℝ) (x yv : List ℝ)
    (yerr : ℝ) (h : x.length = yv.length) :
    (model_numpy [a0, μ0, σ0, a1, μ1, σ1] x).isSome ∧
    (model_jax [a0, μ0, σ0, a1, μ1, σ1] x).isSome ∧
    (chi2_numpy [a0, μ0, σ0, a1, μ1, σ1] x yv yerr).isSome ∧
    (chi2_jax [a0, μ0, σ0, a1, μ1, σ1] x yv yerr).isSome ∧
    (∀ p : List ℝ, p.length ≠ 6 →
      model_numpy p x = none ∧ model_jax p x = none ∧
      chi2_numpy p x yv yerr = none ∧ chi2_jax p x yv yerr = none) := by
  refine ⟨rfl, rfl, ?_, ?_, fun p hp => ?_⟩
  · rw [chi2_numpy_six a0 μ0 σ0 a1 μ1 σ1 x yv yerr h]; rfl
  · rw [← chi2_numpy_eq_chi2_jax,
      chi2_numpy_six a0 μ0 σ0 a1 μ1 σ1 x yv yerr h]; rfl
  · have hn := model_numpy_none_of_length_ne p x hp
    have hj : model_jax p x = none := (model_numpy_eq_model_jax p x) ▸ hn
    refine ⟨hn, hj, ?_, ?_⟩
    · rw [chi2_numpy, hn]; rfl
    · rw [chi2_jax, hj]; rfl

/-- Witness for C5's amended theorem at
`p = [1, 0, 1, 1, 0, 1]`, `x = [0]`, `y = [0]`, `yerr = 1`, and the
short parameter vector `[1]`. -/
theorem model_chi2_total_witness :
    List.length [(0 : ℝ)] = List.length [(0 : ℝ)] ∧
    ((model_numpy [1, 0, 1, 1, 0, 1] [(0 : ℝ)]).isSome ∧
     (model_jax [1, 0, 1, 1, 0, 1] [(0 : ℝ)]).isSome ∧
     (chi2_numpy [1, 0, 1, 1, 0, 1] [0] [0] 1).isSome ∧
     (chi2_jax [1, 0, 1, 1, 0, 1] [0] [0] 1).isSome ∧
     (∀ p : List ℝ, p.length ≠ 6 →
       model_numpy p [(0 : ℝ)] = none ∧ model_jax p [(0 : ℝ)] = none ∧
       chi2_numpy p [0] [0] 1 = none ∧ chi2_jax p [0] [0] 1 = none)) :=
  ⟨rfl, model_chi2_total 1 0 1 1 0 1 [0] [0] 1 rfl⟩

/-- C8: The notebook's functions add no recovery, retry or validation
logic: `chi2_numpy` (resp. `chi2_jax`) fails exactly when its inner
model call fails (a parameter vector that is not six long) or when the
model output and `y` are broadcast-incompatible, a failing model call
propagates unchanged to the chi2 result, and the deterministic core of
`numpyro_model` (the likelihood mean, a `model_jax` call on a six-entry
parameter list) never fails and validates nothing. -/
theorem failures_propagate_unchanged :
    (∀ (p x yv : List ℝ) (yerr : ℝ),
      (chi2_numpy p x yv yerr = none ↔
        p.length ≠ 6 ∨
          (x.length ≠ yv.length ∧ x.length ≠ 1 ∧ yv.length ≠ 1)) ∧
      (chi2_jax p x yv yerr = none ↔
        p.length ≠ 6 ∨
          (x.length ≠ yv.length ∧ x.length ≠ 1 ∧ yv.length ≠ 1)) ∧
      (model_numpy p x = none → chi2_numpy p x yv yerr = none) ∧
      (model_jax p x = none → chi2_jax p x yv yerr = none)) ∧
    (∀ a0 μ0 σ0 a1 μ1 σ1 : ℝ,
      (numpyro_model_mean a0 μ0 σ0 a1 μ1 σ1).isSome) := by
  refine ⟨fun p x yv yerr => ⟨chi2_numpy_eq_none_iff p x yv yerr, ?_, ?_, ?_⟩,
    fun a0 μ0 σ0 a1 μ1 σ1 => rfl⟩
  · rw [← chi2_numpy_eq_chi2_jax]
    exact chi2_numpy_eq_none_iff p x yv yerr
  · intro hn
    rw [chi2_numpy, hn]; rfl
  · intro hj
    rw [chi2_jax, hj]; rfl

/-- Witness for C8: a failing model call (empty parameter vector, hence
not six long) propagates unchanged to `chi2_numpy`. -/
theorem failures_propagate_unchanged_witness :
    chi2_numpy [] [(0 : ℝ)] [0] 1 = none :=
  (failures_propagate_unchanged.1 [] [0] [0] 1).2.2.1 rfl

/-- C7: The worker-count hint and the sampler's configured parallelism
agree: the notebook passes `cpu_cores = 4` to
`numpyro.set_host_device_count`, splits `PRNGKey(42)` into exactly
`cpu_cores` keys, and builds the `MCMC` object with `num_chains = 4`,
so the number of RNG keys handed to `mcmc.run` equals the number of
parallel chains, which equals the worker-count hint. -/
theorem worker_count_consistent :
    host_device_count = cpu_cores ∧
    rng_keys.length = num_chains ∧
    num_chains = cpu_cores ∧
    cpu_cores = 4 := by
  refine ⟨rfl, ?_, rfl, rfl⟩
  rw [rng_keys, split, List.length_map, List.length_range]
  rfl

/-- C9: The mixture model is invariant under swapping its two Gaussian
components, and consequently so are both chi-square objectives — the
label-exchange symmetry of the two components. -/
theorem model_swap_symmetric (a0 μ0 σ0 a1 μ1 σ1 : ℝ) (x yv : List ℝ)
    (yerr : ℝ) :
    model_numpy [a0, μ0, σ0, a1, μ1, σ1] x =
      model_numpy [a1, μ1, σ1, a0, μ0, σ0] x ∧
    chi2_numpy [a0, μ0, σ0, a1, μ1, σ1] x yv yerr =
      chi2_numpy [a1, μ1, σ1, a0, μ0, σ0] x yv yerr ∧
    chi2_jax [a0, μ0, σ0, a1, μ1, σ1] x yv yerr =
      chi2_jax [a1, μ1, σ1, a0, μ0, σ0] x yv yerr := by
  have hfun : (fun t =>
      a0 * Real.exp (-0.5 * (t - μ0) ^ 2 / σ0 ^ 2) +
      a1 * Real.exp (-0.5 * (t - μ1) ^ 2 / σ1 ^ 2)) =
      (fun t =>
      a1 * Real.exp (-0.5 * (t - μ1) ^ 2 / σ1 ^ 2) +
      a0 * Real.exp (-0.5 * (t - μ0) ^ 2 / σ0 ^ 2)) :=
    funext fun t => add_comm _ _
  have hswap : model_numpy [a0, μ0, σ0, a1, μ1, σ1] x =
      model_numpy [a1, μ1, σ1, a0, μ0, σ0] x := by
    rw [model_numpy_six, model_numpy_six, hfun]
  refine ⟨hswap, ?_, ?_⟩
  · rw [chi2_numpy, chi2_numpy, hswap]
  · rw [← chi2_numpy_eq_chi2_jax, ← chi2_numpy_eq_chi2_jax,
      chi2_numpy, chi2_numpy, hswap]

/-- C10: Every true synthetic parameter lies strictly inside the
support of its uniform prior in `numpyro_model`: `amp0 = 5 ∈ (0, 8)`,
`amp1 = 10 ∈ (8, 30)`, `x0 = 0.5` and `x1 = −0.2` in `(−1, 1)`, and
`s0 = 1` and `s1 = 0.3` in `(0, 3)`. -/
theorem true_params_inside_prior_support :
    amp0_prior.mem amp0 ∧ amp1_prior.mem amp1 ∧
    center_prior.mem x0 ∧ center_prior.mem x1 ∧
    sigma_prior.mem s0 ∧ sigma_prior.mem s1 := by
  simp only [UniformPrior.mem, amp0_prior, amp1_prior, center_prior,
    sigma_prior, amp0, amp1, x0, x1, s0, s1]
  norm_num

end CodeCoffee
